import Mathlib

/-!
Verification development for the RFP document processor (`src/App.jsx`).

The program is a browser pipeline: user-selected files are OCRed
(images directly, PDFs page by page after rasterization at scale 2),
the concatenated text is sent once to a chat-completion API together
with a fixed system prompt, the JSON answer is parsed and POSTed to a
persistence endpoint, and a status/errorLog cell is updated along the way.

External capabilities (OCR engine, PDF renderer, chat API, JSON
parse/stringify builtins, HTTP fetch) are modelled as fields of an `Env`
record of pure functions; fallible calls return `Except String`.
The orchestrator is embedded as a function producing the list of
observable events (external calls, status writes, errorLog writes,
alerts) of one `processFiles` invocation; the final component state is
the replay of the setter events, mirroring the React `setState` calls.
-/

/-- A user-selected file: its name, declared media type
(`file.type` in the source) and an abstract identity for its binary
content. -/
structure File where
  name : String
  type : String
  content : Nat
deriving DecidableEq, Repr

/-- A rendered viewport, as returned by `page.getViewport({scale})`:
just its dimensions. -/
structure Viewport where
  width : Nat
  height : Nat
deriving DecidableEq, Repr

/-- Handle for an opened PDF document (`pdfjs.getDocument(...).promise`):
page count plus an abstract identity. -/
structure PdfDoc where
  numPages : Nat
  docId : Nat
deriving DecidableEq, Repr

/-- Handle for one PDF page (`pdf.getPage(i)`). -/
structure Page where
  pageId : Nat
deriving DecidableEq, Repr

/-- An in-memory raster: the canvas contents after `page.render`, as
fed to OCR via `canvas.toDataURL()`. -/
structure Raster where
  width : Nat
  height : Nat
  payload : Nat
deriving DecidableEq, Repr

/-- Input accepted by `Tesseract.recognize`: either a file object
directly (image path) or a data URL of a rendered canvas (PDF path). -/
inductive OcrInput where
  | file (f : File)
  | dataURL (r : Raster)
deriving DecidableEq, Repr

/-- One chat message of the completion request. -/
structure Message where
  role : String
  content : String
deriving DecidableEq, Repr

/-- The request sent to `groq.chat.completions.create`. -/
structure ChatRequest where
  messages : List Message
  model : String
  responseFormat : String
deriving DecidableEq, Repr

/-- JSON values, the result type of `JSON.parse`.  Lean equality on
this type is structural, i.e. deep equality of JSON documents. -/
inductive Json where
  | null
  | bool (b : Bool)
  | num (n : Int)
  | str (s : String)
  | arr (elems : List Json)
  | obj (fields : List (String × Json))

/-- An HTTP response as seen by the caller of `fetch`: its status code
and status text. -/
structure HttpResponse where
  status : Nat
  statusText : String
deriving DecidableEq, Repr

/-- The `response.ok` flag of the fetch API: true exactly for a
2xx-class status (per the WHATWG fetch specification). -/
def HttpResponse.ok (r : HttpResponse) : Bool :=
  200 ≤ r.status && r.status < 300

/-- One external call made by the pipeline. -/
inductive Call where
  | ocr (i : OcrInput)
  | getDocument (f : File)
  | getPage (d : PdfDoc) (i : Nat)
  | render (p : Page) (canvas : Viewport) (vp : Viewport)
  | chat (req : ChatRequest)
  | fetchPost (url : String) (contentType : String) (body : String)

/-- One observable event of a `processFiles` invocation. -/
inductive Event where
  | call (c : Call)
  | setStatus (v : String)
  | setErrorLog (v : String)
  | alert (msg : String)

/-- The external capabilities consumed by the pipeline, as pure
(hence deterministic) functions.  `getDocument` folds the
`file.arrayBuffer()` read into the PDF open; `chatCreate` returns
`completion.choices[0].message.content`; `render` takes the canvas
dimensions and the viewport passed to `page.render`. -/
structure Env where
  recognize : OcrInput → Except String String
  getDocument : File → Except String PdfDoc
  getPage : PdfDoc → Nat → Except String Page
  getViewport : Page → Nat → Viewport
  render : Page → Viewport → Viewport → Except String Raster
  chatCreate : ChatRequest → Except String String
  jsonParse : String → Except String Json
  jsonStringify : Json → String
  fetchPost : String → String → String → Except String HttpResponse

/-- The inner `for` loop over PDF pages
(`for (let i = 1; i <= pdf.numPages; i++)`): processes pages
`i, i+1, ...` while `remaining` pages are left (the caller passes
`remaining = pdf.numPages` at `i = 1`).  Each page is rendered at
scale 2 onto a canvas sized to the rendered viewport, OCRed, and its
text plus a newline appended to the accumulator. -/
def pdfPagesLoop (env : Env) (pdf : PdfDoc) :
    Nat → Nat → String → List Call × Except String String
  | _, 0, acc => ([], .ok acc)
  | i, remaining + 1, acc =>
    match env.getPage pdf i with
    | .error e => ([.getPage pdf i], .error e)
    | .ok page =>
      let vp := env.getViewport page 2
      match env.render page vp vp with
      | .error e => ([.getPage pdf i, .render page vp vp], .error e)
      | .ok raster =>
        match env.recognize (.dataURL raster) with
        | .error e =>
          ([.getPage pdf i, .render page vp vp, .ocr (.dataURL raster)], .error e)
        | .ok text =>
          let rest := pdfPagesLoop env pdf (i + 1) remaining (acc ++ text ++ "\n")
          (.getPage pdf i :: .render page vp vp :: .ocr (.dataURL raster) :: rest.1,
           rest.2)

/-- The per-file branch of the normalizer: PDFs are opened and fed to
the page loop, every other file is submitted directly to OCR and its
text plus a newline appended. -/
def processOneFile (env : Env) (acc : String) (f : File) :
    List Call × Except String String :=
  if f.type = "application/pdf" then
    match env.getDocument f with
    | .error e => ([.getDocument f], .error e)
    | .ok pdf =>
      let rest := pdfPagesLoop env pdf 1 pdf.numPages acc
      (.getDocument f :: rest.1, rest.2)
  else
    match env.recognize (.file f) with
    | .error e => ([.ocr (.file f)], .error e)
    | .ok text => ([.ocr (.file f)], .ok (acc ++ text ++ "\n"))

/-- The outer `for (const file of files)` loop accumulating
`fullText`. -/
def normalizeFiles (env : Env) : List File → String → List Call × Except String String
  | [], acc => ([], .ok acc)
  | f :: rest, acc =>
    match processOneFile env acc f with
    | (cs, .error e) => (cs, .error e)
    | (cs, .ok acc') =>
      let r := normalizeFiles env rest acc'
      (cs ++ r.1, r.2)

/-- The fixed system instruction of the extraction request (the
template-literal string in the source, with its JS indentation
normalized; its content is reproduced line by line). -/
def systemPrompt : String :=
  "Extract the following fields into a clean JSON object.\n" ++
  "VARIABLES:\n" ++
  "payee, tin, address, purpose,\n" ++
  "category (must be exactly one of:\n" ++
  "\"training allowance/final pay/ Government Remittances\",\n" ++
  "\"Manpower / Consultant\",\n" ++
  "\"Others\"),\n" ++
  "currency,\n" ++
  "amount (total amount due),\n" ++
  "amountinwords (convert numeric amount to words),\n" ++
  "accountnum,\n" ++
  "mobilenum,\n" ++
  "sib (invoice/receipt/control number).\n" ++
  "----------------------------\n" ++
  "PAYEE RULES:\n" ++
  "1. The payee is the entity issuing the invoice or receipt (vendor/service provider).\n" ++
  "2. Do NOT use the following as the payee:\n" ++
  "  - Name: \"EQUICOM SERVICES, INC\"\n" ++
  "  - TIN: \"008-188-644-000\"\n" ++
  "  - Address: \"2F CIBI BUILDING ZAPOTE COR. MASCARDO, MAKATI CITY, 1200\"\n" ++
  "3. If the document contains \"From:\" and \"To:\", the payee is under \"From:\".\n" ++
  "4. If the document contains \"SOLD TO:\" or \"Customer Name:\", the payee is NOT the entity in that section.\n" ++
  "5. If the document contains \"By:\", the payee is the entity after \"By:\".\n" ++
  "6. The TIN and address must belong to the payee only.\n" ++
  "7. The payee name is usually the first company listed at the top or near \"From:\".\n" ++
  "8. If uncertain, return null for payee, tin, and address.\n" ++
  "----------------------------\n" ++
  "SIB RULES:\n" ++
  "1. SIB is the invoice number, OR number, SOA number, or sales invoice number issued by the payee.\n" ++
  "2. Extract values clearly labeled as:\n" ++
  "  \"Invoice No\", \"Invoice Number\",\n" ++
  "  \"Sales Invoice\", \"Official Receipt\",\n" ++
  "  \"OR No\", \"SOA\", \"Billing No\".\n" ++
  "3. Ignore numbers labeled:\n" ++
  "  Account Number, Permit Number, Acknowledgement Certificate,\n" ++
  "  REF No, Control numbers unrelated to invoice.\n" ++
  "4. If multiple valid invoice numbers appear, choose the one clearly associated with the payee.\n" ++
  "5. If unclear, return null.\n" ++
  "----------------------------\n" ++
  "AMOUNT RULES:\n" ++
  "1. Use the TOTAL AMOUNT DUE payable to the payee.\n" ++
  "2. If both VAT inclusive and net amounts exist, select the final payable amount.\n" ++
  "3. Convert numeric amount to words for \"amountinwords\".\n" ++
  "----------------------------\n" ++
  "CURRENCY RULES:\n" ++
  "1. Detect from symbols like PHP, P, ₱, USD, etc.\n" ++
  "2. Normalize \"P\" or \"₱\" to \"PHP\".\n" ++
  "3. If currency cannot be determined, return null.\n" ++
  "----------------------------\n" ++
  "CATEGORY RULES:\n" ++
  "- If payroll, allowance, remittance → \"training allowance/final pay/ Government Remittances\"\n" ++
  "- If service provider, internet, licensing, consulting → \"Manpower / Consultant\"\n" ++
  "- Otherwise → \"Others\"\n" ++
  "----------------------------\n" ++
  "PURPOSE RULES:\n" ++
  "- Extract a short description of the invoice or service provided.\n" ++
  "- Usually from \"Description\", \"Nature of Service\", or line items.\n" ++
  "----------------------------\n" ++
  "ACCOUNTNUM & MOBILENUM:\n" ++
  "- Extract only if explicitly labeled (e.g., Account Number, Mobile Number).\n" ++
  "- If missing, return null.\n" ++
  "----------------------------\n" ++
  "VALIDATION NOTES:\n" ++
  "- Ignore any company info that matches Equicom’s name, TIN, or address.\n" ++
  "- If any value is uncertain, return null.\n" ++
  "- Output ONLY valid JSON.\n" ++
  "EXTRA:\n" ++
  "- Anchor payee, TIN, and address to the vendor section (top of document or \"From:\").\n" ++
  "- Anchor SIB to the payee-issued invoice/receipt/statement.\n" ++
  "- Do not pick numbers or addresses associated with the buyer (Equicom).\n"

/-- Model identifier passed to the completion call. -/
def modelId : String := "llama-3.3-70b-versatile"

/-- Status written before the completion call. -/
def extractingStatus : String := "processing: Extracting Data via AI..."

/-- Status written before the persistence call. -/
def savingStatus : String := "processing: Saving to Server..."

/-- URL of the persistence endpoint. -/
def serverUrl : String := "https://apps.equicomservices.com/rfp/salam.php"

/-- Message of the alert shown for an empty file selection. -/
def alertMessage : String := "Please upload files first"

/-- The single chat-completion request built from the accumulated
text: a fixed system instruction and the extracted text as the user
content, with a fixed model and the JSON-object response format. -/
def groqRequest (fullText : String) : ChatRequest :=
  { messages := [{ role := "system", content := systemPrompt },
                 { role := "user", content := fullText }],
    model := modelId,
    responseFormat := "json_object" }

/-- The body of the `try` block of `processFiles`, from the file loop
to the `response.ok` check: returns the events it emits (in order) and
either `.ok ()` (the `setStatus("success")` path was taken) or
`.error e` (the JS code threw with message `e`). -/
def runPipeline (env : Env) (files : List File) : List Event × Except String Unit :=
  match normalizeFiles env files "" with
  | (cs, .error e) => (cs.map .call, .error e)
  | (cs, .ok fullText) =>
    let req := groqRequest fullText
    let head := cs.map Event.call ++ [.setStatus extractingStatus, .call (.chat req)]
    match env.chatCreate req with
    | .error e => (head, .error e)
    | .ok content =>
      match env.jsonParse content with
      | .error e => (head, .error e)
      | .ok extractedJson =>
        let body := env.jsonStringify extractedJson
        let head2 := head ++
          [.setStatus savingStatus, .call (.fetchPost serverUrl "application/json" body)]
        match env.fetchPost serverUrl "application/json" body with
        | .error e => (head2, .error e)
        | .ok resp =>
          if resp.ok then (head2 ++ [.setStatus "success"], .ok ())
          else (head2, .error ("Server failed: " ++ resp.statusText))

/-- The mutable component state: the selected files and the
`status` / `errorLog` cells. -/
structure AppState where
  files : List File
  status : String
  errorLog : String
deriving DecidableEq, Repr

/-- Effect of one event on the component state: `setStatus` and
`setErrorLog` overwrite their cell, calls and alerts leave the state
unchanged. -/
def applyEvent (s : AppState) : Event → AppState
  | .setStatus v => { s with status := v }
  | .setErrorLog v => { s with errorLog := v }
  | .call _ => s
  | .alert _ => s

/-- Replay a list of events over a state. -/
def runEvents (s : AppState) (es : List Event) : AppState :=
  es.foldl applyEvent s

/-- The events of one `processFiles` invocation: the empty-selection
guard, the two initial setter calls, the `try` block and — when the
block throws — the `catch` handler's two setter calls. -/
def processFilesEvents (env : Env) (s : AppState) : List Event :=
  if s.files.length = 0 then [.alert alertMessage]
  else
    Event.setStatus "processing" :: Event.setErrorLog "" ::
      (match runPipeline env s.files with
       | (es, .ok _) => es
       | (es, .error e) => es ++ [.setStatus "error", .setErrorLog e])

/-- One `processFiles` invocation: its events and the resulting
component state. -/
def processFiles (env : Env) (s : AppState) : List Event × AppState :=
  (processFilesEvents env s, runEvents s (processFilesEvents env s))

/-- Modelled from the spec-side wording of the normalizer contract:
the OCR output of one PDF page, taken from a raster rendered at fixed
scale 2 onto a surface sized to the rendered viewport, followed by a
single newline. -/
def specPageText (env : Env) (pdf : PdfDoc) (i : Nat) : Except String String :=
  match env.getPage pdf i with
  | .error e => .error e
  | .ok page =>
    let vp := env.getViewport page 2
    match env.render page vp vp with
    | .error e => .error e
    | .ok raster =>
      match env.recognize (.dataURL raster) with
      | .error e => .error e
      | .ok t => .ok (t ++ "\n")

/-- Concatenate a list of fallible strings, failing at the first
failure. -/
def exceptSeqConcat : List (Except String String) → Except String String
  | [] => .ok ""
  | x :: xs =>
    match x with
    | .error e => .error e
    | .ok t =>
      match exceptSeqConcat xs with
      | .error e => .error e
      | .ok rest => .ok (t ++ rest)

/-- Spec-side contribution of one PDF file: its pages in ascending
order starting at page 1. -/
def specPdfText (env : Env) (pdf : PdfDoc) : Except String String :=
  exceptSeqConcat (((List.range pdf.numPages).map (· + 1)).map (specPageText env pdf))

/-- Spec-side contribution of one file: a PDF contributes its pages'
OCR texts, each newline-terminated; any other file contributes its own
OCR text followed by a single newline. -/
def specFileContribution (env : Env) (f : File) : Except String String :=
  if f.type = "application/pdf" then
    match env.getDocument f with
    | .error e => .error e
    | .ok pdf => specPdfText env pdf
  else
    match env.recognize (.file f) with
    | .error e => .error e
    | .ok t => .ok (t ++ "\n")

/-- Spec-side extracted text: concatenation, in upload order, of one
contribution per file. -/
def specExtractedText (env : Env) (files : List File) : Except String String :=
  exceptSeqConcat (files.map (specFileContribution env))

lemma exmap_ok {α β : Type} (f : α → β) (a : α) :
    Except.map f (.ok a : Except String α) = .ok (f a) := rfl

lemma exmap_error {α β : Type} (f : α → β) (e : String) :
    Except.map f (.error e : Except String α) = (.error e : Except String β) := rfl

@[simp] lemma exceptSeqConcat_nil : exceptSeqConcat [] = .ok "" := rfl

@[simp] lemma exceptSeqConcat_cons_error (e : String) (xs : List (Except String String)) :
    exceptSeqConcat (.error e :: xs) = .error e := rfl

@[simp] lemma exceptSeqConcat_cons_ok (t : String) (xs : List (Except String String)) :
    exceptSeqConcat (.ok t :: xs) =
      Except.map (fun r => t ++ r) (exceptSeqConcat xs) := by
  rcases h : exceptSeqConcat xs with e | R
  · rw [exceptSeqConcat, h, exmap_error]
  · rw [exceptSeqConcat, h, exmap_ok]

lemma pdfPagesLoop_spec (env : Env) (pdf : PdfDoc) :
    ∀ (r i : Nat) (acc : String),
      (pdfPagesLoop env pdf i r acc).2 =
        Except.map (fun t => acc ++ t)
          (exceptSeqConcat (((List.range r).map (i + ·)).map (specPageText env pdf))) := by
  intro r
  induction r with
  | zero =>
    intro i acc
    simp [pdfPagesLoop, exmap_ok, String.append_empty]
  | succ n ih =>
    intro i acc
    have hidx : (List.range (n + 1)).map (fun k => i + k) =
        i :: (List.range n).map (fun k => (i + 1) + k) := by
      rw [List.range_succ_eq_map]
      simp only [List.map_cons, List.map_map, Nat.add_zero]
      refine congrArg (List.cons i) ?_
      apply List.map_congr_left
      intro k _
      simp only [Function.comp_apply]
      omega
    rw [hidx, List.map_cons]
    show (pdfPagesLoop env pdf i (n + 1) acc).2 = _
    rw [pdfPagesLoop]
    rcases hpg : env.getPage pdf i with e | page
    · simp [specPageText, hpg, exmap_error]
    · rcases hrd : env.render page (env.getViewport page 2) (env.getViewport page 2)
        with e | raster
      · simp [specPageText, hpg, hrd, exmap_error]
      · rcases hoc : env.recognize (.dataURL raster) with e | text
        · simp [specPageText, hpg, hrd, hoc, exmap_error]
        · simp only [specPageText, hpg, hrd, hoc]
          rw [ih (i + 1) (acc ++ text ++ "\n")]
          rcases hrest :
              exceptSeqConcat ((List.range n).map
                (specPageText env pdf ∘ fun k => (i + 1) + k)) with e | R
          · simp [hrest, exmap_error]
          · simp [hrest, exmap_ok, String.append_assoc]

lemma processOneFile_spec (env : Env) (acc : String) (f : File) :
    (processOneFile env acc f).2 =
      Except.map (fun t => acc ++ t) (specFileContribution env f) := by
  rw [processOneFile, specFileContribution]
  by_cases hty : f.type = "application/pdf"
  · rw [if_pos hty, if_pos hty]
    rcases hdoc : env.getDocument f with e | pdf
    · rw [exmap_error]
    · show (pdfPagesLoop env pdf 1 pdf.numPages acc).2 = _
      rw [pdfPagesLoop_spec env pdf pdf.numPages 1 acc]
      simp only [specPdfText]
      have hone : (List.range pdf.numPages).map (fun k => 1 + k) =
          (List.range pdf.numPages).map (· + 1) := by
        apply List.map_congr_left
        intro k _
        omega
      rw [hone]
  · rw [if_neg hty, if_neg hty]
    rcases hoc : env.recognize (.file f) with e | text
    · rw [exmap_error]
    · rw [exmap_ok]
      simp [String.append_assoc]

lemma normalizeFiles_spec (env : Env) :
    ∀ (files : List File) (acc : String),
      (normalizeFiles env files acc).2 =
        Except.map (fun t => acc ++ t) (specExtractedText env files) := by
  intro files
  induction files with
  | nil =>
    intro acc
    simp [normalizeFiles, specExtractedText, exmap_ok, String.append_empty]
  | cons f rest ih =>
    intro acc
    rw [normalizeFiles]
    rcases hpf : processOneFile env acc f with ⟨cs, pres⟩
    have hspec := processOneFile_spec env acc f
    rw [hpf] at hspec
    rcases hfc : specFileContribution env f with e | contrib
    · rw [hfc, exmap_error] at hspec
      simp only at hspec
      subst hspec
      simp [specExtractedText, hfc, exmap_error]
    · rw [hfc, exmap_ok] at hspec
      simp only at hspec
      subst hspec
      show (normalizeFiles env rest (acc ++ contrib)).2 = _
      rw [ih (acc ++ contrib)]
      simp only [specExtractedText, List.map_cons, hfc, exceptSeqConcat_cons_ok]
      rcases hrest : exceptSeqConcat (rest.map (specFileContribution env)) with e | R
      · simp [hrest, exmap_error]
      · simp [hrest, exmap_ok, String.append_assoc]

/-- C1: for every batch of selected files, the normalizer's
accumulated text equals the concatenation, in upload order, of one
contribution per file — an image file contributes its OCR output plus
one newline, a PDF file contributes, for each page in ascending order
starting at 1, that page's OCR output (from a raster rendered at fixed
scale 2 sized to the rendered viewport) plus one newline; error
propagation also agrees. -/
theorem normalizer_matches_spec_concat (env : Env) (files : List File) :
    (normalizeFiles env files "").2 = specExtractedText env files := by
  rw [normalizeFiles_spec env files ""]
  rcases h : specExtractedText env files with e | t
  · rfl
  · rw [exmap_ok]
    show Except.ok ("" ++ t) = Except.ok t
    rw [String.empty_append]

@[simp] lemma applyEvent_call (s : AppState) (c : Call) :
    applyEvent s (.call c) = s := rfl

@[simp] lemma applyEvent_alert (s : AppState) (m : String) :
    applyEvent s (.alert m) = s := rfl

@[simp] lemma applyEvent_setStatus (s : AppState) (v : String) :
    applyEvent s (.setStatus v) = { s with status := v } := rfl

@[simp] lemma applyEvent_setErrorLog (s : AppState) (v : String) :
    applyEvent s (.setErrorLog v) = { s with errorLog := v } := rfl

@[simp] lemma runEvents_nil (s : AppState) : runEvents s [] = s := rfl

@[simp] lemma runEvents_cons (s : AppState) (e : Event) (es : List Event) :
    runEvents s (e :: es) = runEvents (applyEvent s e) es := rfl

@[simp] lemma runEvents_append (s : AppState) (a b : List Event) :
    runEvents s (a ++ b) = runEvents (runEvents s a) b := by
  simp [runEvents, List.foldl_append]

@[simp] lemma runEvents_calls (cs : List Call) :
    ∀ s : AppState, runEvents s (cs.map .call) = s := by
  induction cs with
  | nil => intro s; rfl
  | cons c rest ih => intro s; simp [ih]

lemma runEvents_files (es : List Event) :
    ∀ s : AppState, (runEvents s es).files = s.files := by
  induction es with
  | nil => intro s; rfl
  | cons e rest ih =>
    intro s
    rw [runEvents_cons, ih]
    cases e <;> rfl

lemma runPipeline_norm_error (env : Env) (files : List File)
    (cs : List Call) (e : String)
    (h : normalizeFiles env files "" = (cs, .error e)) :
    runPipeline env files = (cs.map .call, .error e) := by
  rw [runPipeline, h]

lemma runPipeline_chat_error (env : Env) (files : List File)
    (cs : List Call) (t e : String)
    (hn : normalizeFiles env files "" = (cs, .ok t))
    (hc : env.chatCreate (groqRequest t) = .error e) :
    runPipeline env files =
      (cs.map Event.call ++
        [.setStatus extractingStatus, .call (.chat (groqRequest t))], .error e) := by
  rw [runPipeline, hn]
  simp only [hc]

lemma runPipeline_parse_error (env : Env) (files : List File)
    (cs : List Call) (t c e : String)
    (hn : normalizeFiles env files "" = (cs, .ok t))
    (hc : env.chatCreate (groqRequest t) = .ok c)
    (hp : env.jsonParse c = .error e) :
    runPipeline env files =
      (cs.map Event.call ++
        [.setStatus extractingStatus, .call (.chat (groqRequest t))], .error e) := by
  rw [runPipeline, hn]
  simp only [hc, hp]

lemma runPipeline_fetch_error (env : Env) (files : List File)
    (cs : List Call) (t c e : String) (j : Json)
    (hn : normalizeFiles env files "" = (cs, .ok t))
    (hc : env.chatCreate (groqRequest t) = .ok c)
    (hp : env.jsonParse c = .ok j)
    (hf : env.fetchPost serverUrl "application/json" (env.jsonStringify j) = .error e) :
    runPipeline env files =
      (cs.map Event.call ++
        [.setStatus extractingStatus, .call (.chat (groqRequest t)),
         .setStatus savingStatus,
         .call (.fetchPost serverUrl "application/json" (env.jsonStringify j))],
       .error e) := by
  rw [runPipeline, hn]
  simp only [hc, hp, hf]
  simp [List.append_assoc]

lemma runPipeline_fetch_ok (env : Env) (files : List File)
    (cs : List Call) (t c : String) (j : Json) (r : HttpResponse)
    (hn : normalizeFiles env files "" = (cs, .ok t))
    (hc : env.chatCreate (groqRequest t) = .ok c)
    (hp : env.jsonParse c = .ok j)
    (hf : env.fetchPost serverUrl "application/json" (env.jsonStringify j) = .ok r)
    (hr : r.ok = true) :
    runPipeline env files =
      (cs.map Event.call ++
        [.setStatus extractingStatus, .call (.chat (groqRequest t)),
         .setStatus savingStatus,
         .call (.fetchPost serverUrl "application/json" (env.jsonStringify j)),
         .setStatus "success"],
       .ok ()) := by
  rw [runPipeline, hn]
  simp only [hc, hp, hf, hr]
  simp [List.append_assoc]

lemma runPipeline_fetch_notOk (env : Env) (files : List File)
    (cs : List Call) (t c : String) (j : Json) (r : HttpResponse)
    (hn : normalizeFiles env files "" = (cs, .ok t))
    (hc : env.chatCreate (groqRequest t) = .ok c)
    (hp : env.jsonParse c = .ok j)
    (hf : env.fetchPost serverUrl "application/json" (env.jsonStringify j) = .ok r)
    (hr : r.ok = false) :
    runPipeline env files =
      (cs.map Event.call ++
        [.setStatus extractingStatus, .call (.chat (groqRequest t)),
         .setStatus savingStatus,
         .call (.fetchPost serverUrl "application/json" (env.jsonStringify j))],
       .error ("Server failed: " ++ r.statusText)) := by
  rw [runPipeline, hn]
  simp only [hc, hp, hf, hr]
  simp [List.append_assoc]

/-- Project an event to its external call, if it is one. -/
def callOfEvent : Event → Option Call
  | .call c => some c
  | .setStatus _ => none
  | .setErrorLog _ => none
  | .alert _ => none

/-- The external calls occurring in an event trace, in order. -/
def callEvents (es : List Event) : List Call := es.filterMap callOfEvent

/-- Project a call to its completion request, if it is one. -/
def chatOfCall : Call → Option ChatRequest
  | .chat r => some r
  | .ocr _ => none
  | .getDocument _ => none
  | .getPage _ _ => none
  | .render _ _ _ => none
  | .fetchPost _ _ _ => none

/-- The completion requests issued in an event trace, in order. -/
def chatCalls (es : List Event) : List ChatRequest :=
  (callEvents es).filterMap chatOfCall

/-- Project a call to its HTTP POST parameters (url, content type,
body), if it is one. -/
def fetchOfCall : Call → Option (String × String × String)
  | .fetchPost u c b => some (u, c, b)
  | .ocr _ => none
  | .getDocument _ => none
  | .getPage _ _ => none
  | .render _ _ _ => none
  | .chat _ => none

/-- The HTTP POSTs issued in an event trace, in order. -/
def fetchCalls (es : List Event) : List (String × String × String) :=
  (callEvents es).filterMap fetchOfCall

/-- Project an event to the status value it writes, if any. -/
def statusOfEvent : Event → Option String
  | .setStatus v => some v
  | .setErrorLog _ => none
  | .call _ => none
  | .alert _ => none

/-- The status values written during an event trace, in order. -/
def statusWrites (es : List Event) : List String := es.filterMap statusOfEvent

/-- Project an event to the errorLog value it writes, if any. -/
def errorLogOfEvent : Event → Option String
  | .setErrorLog v => some v
  | .setStatus _ => none
  | .call _ => none
  | .alert _ => none

/-- The errorLog values written during an event trace, in order. -/
def errorLogWrites (es : List Event) : List String := es.filterMap errorLogOfEvent

/-- Calls the normalizer can make (OCR, PDF open, page fetch,
render) — never the completion or persistence capability. -/
def normKind : Call → Bool
  | .ocr _ => true
  | .getDocument _ => true
  | .getPage _ _ => true
  | .render _ _ _ => true
  | .chat _ => false
  | .fetchPost _ _ _ => false

lemma pdfPagesLoop_calls_normKind (env : Env) (pdf : PdfDoc) :
    ∀ (r i : Nat) (acc : String) (c : Call),
      c ∈ (pdfPagesLoop env pdf i r acc).1 → normKind c = true := by
  intro r
  induction r with
  | zero => intro i acc c hc; simp [pdfPagesLoop] at hc
  | succ n ih =>
    intro i acc c hc
    rw [pdfPagesLoop] at hc
    rcases hpg : env.getPage pdf i with e | page
    · simp only [hpg] at hc
      simp at hc; subst hc; rfl
    · simp only [hpg] at hc
      rcases hrd : env.render page (env.getViewport page 2) (env.getViewport page 2)
        with e | raster
      · simp only [hrd] at hc
        simp at hc
        rcases hc with hc | hc <;> subst hc <;> rfl
      · simp only [hrd] at hc
        rcases hoc : env.recognize (.dataURL raster) with e | text
        · simp only [hoc] at hc
          simp at hc
          rcases hc with hc | hc | hc <;> subst hc <;> rfl
        · simp only [hoc] at hc
          simp at hc
          rcases hc with hc | hc | hc | hc
          · subst hc; rfl
          · subst hc; rfl
          · subst hc; rfl
          · exact ih (i + 1) (acc ++ text ++ "\n") c hc

lemma processOneFile_calls_normKind (env : Env) (acc : String) (f : File) (c : Call) :
    c ∈ (processOneFile env acc f).1 → normKind c = true := by
  intro hc
  rw [processOneFile] at hc
  by_cases hty : f.type = "application/pdf"
  · rw [if_pos hty] at hc
    rcases hdoc : env.getDocument f with e | pdf
    · simp only [hdoc] at hc
      simp at hc; subst hc; rfl
    · simp only [hdoc] at hc
      simp at hc
      rcases hc with hc | hc
      · subst hc; rfl
      · exact pdfPagesLoop_calls_normKind env pdf pdf.numPages 1 acc c hc
  · rw [if_neg hty] at hc
    rcases hoc : env.recognize (.file f) with e | text <;> simp only [hoc] at hc <;>
      simp at hc <;> subst hc <;> rfl

lemma normalizeFiles_calls_normKind (env : Env) :
    ∀ (files : List File) (acc : String) (c : Call),
      c ∈ (normalizeFiles env files acc).1 → normKind c = true := by
  intro files
  induction files with
  | nil => intro acc c hc; simp [normalizeFiles] at hc
  | cons f rest ih =>
    intro acc c hc
    rw [normalizeFiles] at hc
    rcases hpf : processOneFile env acc f with ⟨cs, pres⟩
    rw [hpf] at hc
    have hmem : c ∈ cs → normKind c = true := by
      intro hin
      have := processOneFile_calls_normKind env acc f c
      rw [hpf] at this
      exact this hin
    cases pres with
    | error e => exact hmem (by simpa using hc)
    | ok acc' =>
      simp at hc
      rcases hc with hc | hc
      · exact hmem hc
      · exact ih acc' c hc

lemma chatCalls_map_call (cs : List Call)
    (h : ∀ c ∈ cs, normKind c = true) :
    chatCalls (cs.map Event.call) = [] := by
  rw [chatCalls, callEvents, List.filterMap_map]
  have hid : cs.filterMap (callOfEvent ∘ Event.call) = cs := by
    rw [show callOfEvent ∘ Event.call = some from rfl, List.filterMap_some]
  rw [hid, List.filterMap_eq_nil_iff]
  intro c hc
  have := h c hc
  cases c <;> simp_all [normKind, chatOfCall]

lemma fetchCalls_map_call (cs : List Call)
    (h : ∀ c ∈ cs, normKind c = true) :
    fetchCalls (cs.map Event.call) = [] := by
  rw [fetchCalls, callEvents, List.filterMap_map]
  have hid : cs.filterMap (callOfEvent ∘ Event.call) = cs := by
    rw [show callOfEvent ∘ Event.call = some from rfl, List.filterMap_some]
  rw [hid, List.filterMap_eq_nil_iff]
  intro c hc
  have := h c hc
  cases c <;> simp_all [normKind, fetchOfCall]

lemma statusWrites_map_call (cs : List Call) :
    statusWrites (cs.map Event.call) = [] := by
  rw [statusWrites, List.filterMap_map, List.filterMap_eq_nil_iff]
  intro c _
  rfl

lemma errorLogWrites_map_call (cs : List Call) :
    errorLogWrites (cs.map Event.call) = [] := by
  rw [errorLogWrites, List.filterMap_map, List.filterMap_eq_nil_iff]
  intro c _
  rfl

lemma processFilesEvents_nonempty (env : Env) (s : AppState) (h : s.files ≠ []) :
    processFilesEvents env s =
      Event.setStatus "processing" :: Event.setErrorLog "" ::
        (match runPipeline env s.files with
         | (es, .ok _) => es
         | (es, .error e) => es ++ [.setStatus "error", .setErrorLog e]) := by
  rw [processFilesEvents, if_neg]
  simpa [List.length_eq_zero] using h

lemma processFiles_final (env : Env) (s : AppState) (h : s.files ≠ []) :
    (processFiles env s).2.files = s.files ∧
    (((runPipeline env s.files).2 = .ok () ∧
      (processFiles env s).2.status = "success" ∧
      (processFiles env s).2.errorLog = "") ∨
     (∃ e, (runPipeline env s.files).2 = .error e ∧
      (processFiles env s).2.status = "error" ∧
      (processFiles env s).2.errorLog = e)) := by
  have hev := processFilesEvents_nonempty env s h
  refine ⟨?_, ?_⟩
  · simp only [processFiles]
    exact runEvents_files _ s
  · rcases hn : normalizeFiles env s.files "" with ⟨cs, nres⟩
    cases nres with
    | error e =>
      have hrp := runPipeline_norm_error env s.files cs e hn
      right
      refine ⟨e, by rw [hrp], ?_, ?_⟩ <;>
        · simp only [processFiles]
          rw [hev, hrp]
          simp
    | ok t =>
      rcases hc : env.chatCreate (groqRequest t) with e | c
      · have hrp := runPipeline_chat_error env s.files cs t e hn hc
        right
        refine ⟨e, by rw [hrp], ?_, ?_⟩ <;>
          · simp only [processFiles]
            rw [hev, hrp]
            simp
      · rcases hp : env.jsonParse c with e | j
        · have hrp := runPipeline_parse_error env s.files cs t c e hn hc hp
          right
          refine ⟨e, by rw [hrp], ?_, ?_⟩ <;>
            · simp only [processFiles]
              rw [hev, hrp]
              simp
        · rcases hf : env.fetchPost serverUrl "application/json" (env.jsonStringify j)
            with e | r
          · have hrp := runPipeline_fetch_error env s.files cs t c e j hn hc hp hf
            right
            refine ⟨e, by rw [hrp], ?_, ?_⟩ <;>
              · simp only [processFiles]
                rw [hev, hrp]
                simp
          · cases hok : r.ok with
            | false =>
              have hrp := runPipeline_fetch_notOk env s.files cs t c j r hn hc hp hf hok
              right
              refine ⟨"Server failed: " ++ r.statusText, by rw [hrp], ?_, ?_⟩ <;>
                · simp only [processFiles]
                  rw [hev, hrp]
                  simp
            | true =>
              have hrp := runPipeline_fetch_ok env s.files cs t c j r hn hc hp hf hok
              left
              refine ⟨by rw [hrp], ?_, ?_⟩ <;>
                · simp only [processFiles]
                  rw [hev, hrp]
                  simp

/-- The extraction stage: one completion call on the request built
from the full text, then `JSON.parse` of the returned content. -/
def extractStage (env : Env) (fullText : String) : Except String Json :=
  match env.chatCreate (groqRequest fullText) with
  | .error e => .error e
  | .ok content => env.jsonParse content

/-- The dispatch stage: one POST of the stringified record to the
persistence endpoint with content type `application/json`. -/
def dispatchStage (env : Env) (j : Json) : Except String HttpResponse :=
  env.fetchPost serverUrl "application/json" (env.jsonStringify j)

/-- The structured record derived from a batch of files: the parse of
the completion answer on the normalized text, when both stages
succeed. -/
def derivedRecord (env : Env) (files : List File) : Option Json :=
  match (normalizeFiles env files "").2 with
  | .error _ => none
  | .ok t =>
    match extractStage env t with
    | .error _ => none
    | .ok j => some j

@[simp] lemma callEvents_nil : callEvents [] = [] := rfl

@[simp] lemma callEvents_cons_call (c : Call) (es : List Event) :
    callEvents (.call c :: es) = c :: callEvents es := by
  simp [callEvents, callOfEvent]

@[simp] lemma callEvents_cons_setStatus (v : String) (es : List Event) :
    callEvents (.setStatus v :: es) = callEvents es := by
  simp [callEvents, callOfEvent]

@[simp] lemma callEvents_cons_setErrorLog (v : String) (es : List Event) :
    callEvents (.setErrorLog v :: es) = callEvents es := by
  simp [callEvents, callOfEvent]

@[simp] lemma callEvents_cons_alert (m : String) (es : List Event) :
    callEvents (.alert m :: es) = callEvents es := by
  simp [callEvents, callOfEvent]

@[simp] lemma callEvents_append (a b : List Event) :
    callEvents (a ++ b) = callEvents a ++ callEvents b := by
  simp [callEvents]

@[simp] lemma callEvents_map_call (cs : List Call) :
    callEvents (cs.map Event.call) = cs := by
  rw [callEvents, List.filterMap_map]
  rw [show callOfEvent ∘ Event.call = some from rfl, List.filterMap_some]

@[simp] lemma statusWrites_nil : statusWrites [] = [] := rfl

@[simp] lemma statusWrites_cons_call (c : Call) (es : List Event) :
    statusWrites (.call c :: es) = statusWrites es := by
  simp [statusWrites, statusOfEvent]

@[simp] lemma statusWrites_cons_setStatus (v : String) (es : List Event) :
    statusWrites (.setStatus v :: es) = v :: statusWrites es := by
  simp [statusWrites, statusOfEvent]

@[simp] lemma statusWrites_cons_setErrorLog (v : String) (es : List Event) :
    statusWrites (.setErrorLog v :: es) = statusWrites es := by
  simp [statusWrites, statusOfEvent]

@[simp] lemma statusWrites_cons_alert (m : String) (es : List Event) :
    statusWrites (.alert m :: es) = statusWrites es := by
  simp [statusWrites, statusOfEvent]

@[simp] lemma statusWrites_append (a b : List Event) :
    statusWrites (a ++ b) = statusWrites a ++ statusWrites b := by
  simp [statusWrites]

@[simp] lemma statusWrites_map_call_simp (cs : List Call) :
    statusWrites (cs.map Event.call) = [] := statusWrites_map_call cs

@[simp] lemma errorLogWrites_nil : errorLogWrites [] = [] := rfl

@[simp] lemma errorLogWrites_cons_call (c : Call) (es : List Event) :
    errorLogWrites (.call c :: es) = errorLogWrites es := by
  simp [errorLogWrites, errorLogOfEvent]

@[simp] lemma errorLogWrites_cons_setStatus (v : String) (es : List Event) :
    errorLogWrites (.setStatus v :: es) = errorLogWrites es := by
  simp [errorLogWrites, errorLogOfEvent]

@[simp] lemma errorLogWrites_cons_setErrorLog (v : String) (es : List Event) :
    errorLogWrites (.setErrorLog v :: es) = v :: errorLogWrites es := by
  simp [errorLogWrites, errorLogOfEvent]

@[simp] lemma errorLogWrites_cons_alert (m : String) (es : List Event) :
    errorLogWrites (.alert m :: es) = errorLogWrites es := by
  simp [errorLogWrites, errorLogOfEvent]

@[simp] lemma errorLogWrites_append (a b : List Event) :
    errorLogWrites (a ++ b) = errorLogWrites a ++ errorLogWrites b := by
  simp [errorLogWrites]

@[simp] lemma errorLogWrites_map_call_simp (cs : List Call) :
    errorLogWrites (cs.map Event.call) = [] := errorLogWrites_map_call cs

lemma processFilesEvents_cases (env : Env) (s : AppState) (h : s.files ≠ []) :
    (∃ cs e, normalizeFiles env s.files "" = (cs, .error e) ∧
      (runPipeline env s.files).2 = .error e ∧
      processFilesEvents env s =
        Event.setStatus "processing" :: Event.setErrorLog "" ::
          (cs.map Event.call ++ [.setStatus "error", .setErrorLog e])) ∨
    (∃ cs t e, normalizeFiles env s.files "" = (cs, .ok t) ∧
      extractStage env t = .error e ∧
      (runPipeline env s.files).2 = .error e ∧
      processFilesEvents env s =
        Event.setStatus "processing" :: Event.setErrorLog "" ::
          ((cs.map Event.call ++
            [.setStatus extractingStatus, .call (.chat (groqRequest t))]) ++
           [.setStatus "error", .setErrorLog e])) ∨
    (∃ cs t j e, normalizeFiles env s.files "" = (cs, .ok t) ∧
      extractStage env t = .ok j ∧
      dispatchStage env j = .error e ∧
      (runPipeline env s.files).2 = .error e ∧
      processFilesEvents env s =
        Event.setStatus "processing" :: Event.setErrorLog "" ::
          ((cs.map Event.call ++
            [.setStatus extractingStatus, .call (.chat (groqRequest t)),
             .setStatus savingStatus,
             .call (.fetchPost serverUrl "application/json" (env.jsonStringify j))]) ++
           [.setStatus "error", .setErrorLog e])) ∨
    (∃ cs t j r, normalizeFiles env s.files "" = (cs, .ok t) ∧
      extractStage env t = .ok j ∧
      dispatchStage env j = .ok r ∧ r.ok = false ∧
      (runPipeline env s.files).2 = .error ("Server failed: " ++ r.statusText) ∧
      processFilesEvents env s =
        Event.setStatus "processing" :: Event.setErrorLog "" ::
          ((cs.map Event.call ++
            [.setStatus extractingStatus, .call (.chat (groqRequest t)),
             .setStatus savingStatus,
             .call (.fetchPost serverUrl "application/json" (env.jsonStringify j))]) ++
           [.setStatus "error", .setErrorLog ("Server failed: " ++ r.statusText)])) ∨
    (∃ cs t j r, normalizeFiles env s.files "" = (cs, .ok t) ∧
      extractStage env t = .ok j ∧
      dispatchStage env j = .ok r ∧ r.ok = true ∧
      (runPipeline env s.files).2 = .ok () ∧
      processFilesEvents env s =
        Event.setStatus "processing" :: Event.setErrorLog "" ::
          (cs.map Event.call ++
            [.setStatus extractingStatus, .call (.chat (groqRequest t)),
             .setStatus savingStatus,
             .call (.fetchPost serverUrl "application/json" (env.jsonStringify j)),
             .setStatus "success"])) := by
  have hev := processFilesEvents_nonempty env s h
  rcases hn : normalizeFiles env s.files "" with ⟨cs, nres⟩
  cases nres with
  | error e =>
    left
    refine ⟨cs, e, rfl, by rw [runPipeline_norm_error env s.files cs e hn], ?_⟩
    rw [hev, runPipeline_norm_error env s.files cs e hn]
  | ok t =>
    rcases hc : env.chatCreate (groqRequest t) with e | c
    · right; left
      refine ⟨cs, t, e, rfl, by simp [extractStage, hc],
        by rw [runPipeline_chat_error env s.files cs t e hn hc], ?_⟩
      rw [hev, runPipeline_chat_error env s.files cs t e hn hc]
    · rcases hp : env.jsonParse c with e | j
      · right; left
        refine ⟨cs, t, e, rfl, by simp [extractStage, hc, hp],
          by rw [runPipeline_parse_error env s.files cs t c e hn hc hp], ?_⟩
        rw [hev, runPipeline_parse_error env s.files cs t c e hn hc hp]
      · have hex : extractStage env t = .ok j := by simp [extractStage, hc, hp]
        rcases hf : env.fetchPost serverUrl "application/json" (env.jsonStringify j)
          with e | r
        · right; right; left
          refine ⟨cs, t, j, e, rfl, hex, by simp [dispatchStage, hf],
            by rw [runPipeline_fetch_error env s.files cs t c e j hn hc hp hf], ?_⟩
          rw [hev, runPipeline_fetch_error env s.files cs t c e j hn hc hp hf]
        · cases hok : r.ok with
          | false =>
            right; right; right; left
            refine ⟨cs, t, j, r, rfl, hex, by simp [dispatchStage, hf], hok,
              by rw [runPipeline_fetch_notOk env s.files cs t c j r hn hc hp hf hok], ?_⟩
            rw [hev, runPipeline_fetch_notOk env s.files cs t c j r hn hc hp hf hok]
          | true =>
            right; right; right; right
            refine ⟨cs, t, j, r, rfl, hex, by simp [dispatchStage, hf], hok,
              by rw [runPipeline_fetch_ok env s.files cs t c j r hn hc hp hf hok], ?_⟩
            rw [hev, runPipeline_fetch_ok env s.files cs t c j r hn hc hp hf hok]

lemma filterMap_chatOfCall_nil (cs : List Call)
    (h : ∀ c ∈ cs, normKind c = true) :
    cs.filterMap chatOfCall = [] := by
  rw [List.filterMap_eq_nil_iff]
  intro c hc
  have := h c hc
  cases c <;> simp_all [normKind, chatOfCall]

lemma filterMap_fetchOfCall_nil (cs : List Call)
    (h : ∀ c ∈ cs, normKind c = true) :
    cs.filterMap fetchOfCall = [] := by
  rw [List.filterMap_eq_nil_iff]
  intro c hc
  have := h c hc
  cases c <;> simp_all [normKind, fetchOfCall]

/-- Does `hay` start with `needle`?  (character-list version). -/
def charsStartWith : List Char → List Char → Bool
  | _, [] => true
  | [], _ :: _ => false
  | a :: as, b :: bs => a == b && charsStartWith as bs

/-- Does `hay` contain `needle` as a contiguous run?  (character-list
version). -/
def charsContain : List Char → List Char → Bool
  | [], needle => charsStartWith [] needle
  | a :: t, needle => charsStartWith (a :: t) needle || charsContain t needle

/-- The JS `String.prototype.includes` test used by the UI. -/
def strIncludes (s sub : String) : Bool := charsContain s.data sub.data

/-- The condition disabling the start button
(`status.includes("processing")` in the source). -/
def buttonDisabled (status : String) : Bool := strIncludes status "processing"

/-- A sample image file. -/
def imgFile : File := { name := "a.png", type := "image/png", content := 0 }

/-- A sample PDF file. -/
def pdfFile : File := { name := "b.pdf", type := "application/pdf", content := 1 }

/-- A sample file of a media type that is neither image nor PDF. -/
def txtFile : File := { name := "c.txt", type := "text/plain", content := 2 }

/-- A fully successful environment used for concrete evaluations. -/
def testEnv : Env :=
  { recognize := fun _ => .ok "TEXT",
    getDocument := fun f => .ok { numPages := 2, docId := f.content },
    getPage := fun d i => .ok { pageId := d.docId * 100 + i },
    getViewport := fun _ scale => { width := scale * 320, height := scale * 240 },
    render := fun p c v => .ok { width := c.width, height := v.height, payload := p.pageId },
    chatCreate := fun _ => .ok "\x7b\x7d",
    jsonParse := fun c => if c = "\x7b\x7d" then .ok (.obj []) else .error "Unexpected token",
    jsonStringify := fun _ => "\x7b\x7d",
    fetchPost := fun _ _ _ => .ok { status := 200, statusText := "OK" } }

/-- Like `testEnv`, but the completion answer is not parseable JSON. -/
def badJsonEnv : Env := { testEnv with chatCreate := fun _ => .ok "not json" }

/-- Like `testEnv`, but the persistence endpoint answers HTTP 500. -/
def failFetchEnv : Env :=
  { testEnv with
    fetchPost := fun _ _ _ => .ok { status := 500, statusText := "Internal Server Error" } }

/-- A state holding one selected image file. -/
def testState : AppState := { files := [imgFile], status := "idle", errorLog := "" }

/-- A state with an empty selection and a stale error message. -/
def emptyState : AppState := { files := [], status := "idle", errorLog := "old error" }

/-- C6: a run started with an empty file selection is rejected
synchronously: only an alert is raised, the component state (status
and errorLog included) is unchanged, and no external call (OCR, PDF
opening or rendering, generation, persistence) is made. -/
theorem empty_selection_no_op (env : Env) (s : AppState) (h : s.files = []) :
    (processFiles env s).2 = s ∧
    callEvents (processFiles env s).1 = [] ∧
    (processFiles env s).1 = [Event.alert alertMessage] := by
  have hlen : s.files.length = 0 := by simp [h]
  have hev : processFilesEvents env s = [.alert alertMessage] := by
    rw [processFilesEvents, if_pos hlen]
  refine ⟨?_, ?_, ?_⟩
  · simp only [processFiles]
    rw [hev]
    simp
  · simp only [processFiles]
    rw [hev]
    simp
  · simp only [processFiles]
    exact hev

/-- Witness for C6 at a concrete environment and state. -/
theorem empty_selection_no_op_witness :
    emptyState.files = [] ∧
    ((processFiles testEnv emptyState).2 = emptyState ∧
     callEvents (processFiles testEnv emptyState).1 = [] ∧
     (processFiles testEnv emptyState).1 = [Event.alert alertMessage]) :=
  ⟨rfl, empty_selection_no_op testEnv emptyState rfl⟩

/-- C8: a selected file whose declared media type is not exactly
"application/pdf" — whatever it is — is submitted directly to the OCR
capability on the image path; it is never rejected or skipped based on
its media type (the only possible failure is the OCR call itself). -/
theorem non_pdf_goes_to_ocr (env : Env) (acc : String) (f : File)
    (h : f.type ≠ "application/pdf") :
    processOneFile env acc f =
      ([Call.ocr (.file f)],
       match env.recognize (.file f) with
       | .error e => .error e
       | .ok text => .ok (acc ++ text ++ "\n")) := by
  rw [processOneFile, if_neg h]
  rcases hoc : env.recognize (.file f) with e | text <;> simp [hoc]

/-- Witness for C8 at a concrete file of type "text/plain". -/
theorem non_pdf_goes_to_ocr_witness :
    txtFile.type ≠ "application/pdf" ∧
    processOneFile testEnv "" txtFile =
      ([Call.ocr (.file txtFile)], .ok "TEXT\n") := by
  refine ⟨by decide, ?_⟩
  rw [non_pdf_goes_to_ocr testEnv "" txtFile (by decide)]
  rfl

/-- C7: one `processFiles` run never mutates the selected files, and —
the external capabilities being modelled as functions, hence
deterministic — the structured record derivable from the state a run
leaves behind (which holds the identical input files) is deep-equal to
the one derivable before the run; re-running therefore yields a
deep-equal record. -/
theorem rerun_deterministic_no_mutation (env : Env) (s : AppState) :
    (processFiles env s).2.files = s.files ∧
    derivedRecord env ((processFiles env s).2.files) = derivedRecord env s.files := by
  have hfiles : (processFiles env s).2.files = s.files := by
    simp only [processFiles]
    exact runEvents_files _ s
  exact ⟨hfiles, by rw [hfiles]⟩

lemma status_of_error (env : Env) (s : AppState) (h : s.files ≠ []) (e : String)
    (hrp : (runPipeline env s.files).2 = .error e) :
    (processFiles env s).2.status = "error" ∧
    (processFiles env s).2.errorLog = e := by
  rcases processFiles_final env s h with ⟨_, hcase⟩
  rcases hcase with ⟨hok, _, _⟩ | ⟨e', herr', hst, hel⟩
  · rw [hrp] at hok
    simp at hok
  · rw [hrp] at herr'
    simp only [Except.error.injEq] at herr'
    subst herr'
    exact ⟨hst, hel⟩

lemma status_of_ok (env : Env) (s : AppState) (h : s.files ≠ [])
    (hrp : (runPipeline env s.files).2 = .ok ()) :
    (processFiles env s).2.status = "success" ∧
    (processFiles env s).2.errorLog = "" := by
  rcases processFiles_final env s h with ⟨_, hcase⟩
  rcases hcase with ⟨_, hst, hel⟩ | ⟨e', herr', _, _⟩
  · exact ⟨hst, hel⟩
  · rw [hrp] at herr'
    simp at herr'

/-- C2: on every accepted invocation the field extractor is invoked
at most once, and whenever the run ends in status "success" the whole
batch was first concatenated into one text stream and the extractor
was invoked via exactly one completion request in the entire trace — a
single request carrying exactly two messages, the fixed system
instruction and the extracted text as the user content — with exactly
one structured record derived. -/
theorem single_extraction_per_run (env : Env) (s : AppState) (h : s.files ≠ []) :
    (chatCalls (processFilesEvents env s)).length ≤ 1 ∧
    ((processFiles env s).2.status = "success" →
      ∃ t : String,
        (normalizeFiles env s.files "").2 = .ok t ∧
        chatCalls (processFilesEvents env s) = [groqRequest t] ∧
        (groqRequest t).messages =
          [{ role := "system", content := systemPrompt },
           { role := "user", content := t }] ∧
        ∃ j : Json, derivedRecord env s.files = some j) := by
  rcases processFilesEvents_cases env s h with hb | hb | hb | hb | hb
  · rcases hb with ⟨cs, e, hn, hrp, hevents⟩
    have hcs : ∀ c ∈ cs, normKind c = true := by
      intro c hcmem
      have := normalizeFiles_calls_normKind env s.files "" c
      rw [hn] at this
      exact this hcmem
    have hchat : chatCalls (processFilesEvents env s) = [] := by
      rw [hevents]
      simp [chatCalls, chatOfCall, filterMap_chatOfCall_nil cs hcs]
    refine ⟨by simp [hchat], ?_⟩
    intro hs
    rcases status_of_error env s h e hrp with ⟨hst, _⟩
    rw [hst] at hs
    exact absurd hs (by decide)
  · rcases hb with ⟨cs, t, e, hn, _, hrp, hevents⟩
    have hcs : ∀ c ∈ cs, normKind c = true := by
      intro c hcmem
      have := normalizeFiles_calls_normKind env s.files "" c
      rw [hn] at this
      exact this hcmem
    have hchat : chatCalls (processFilesEvents env s) = [groqRequest t] := by
      rw [hevents]
      simp [chatCalls, chatOfCall, filterMap_chatOfCall_nil cs hcs]
    refine ⟨by simp [hchat], ?_⟩
    intro hs
    rcases status_of_error env s h e hrp with ⟨hst, _⟩
    rw [hst] at hs
    exact absurd hs (by decide)
  · rcases hb with ⟨cs, t, j, e, hn, _, _, hrp, hevents⟩
    have hcs : ∀ c ∈ cs, normKind c = true := by
      intro c hcmem
      have := normalizeFiles_calls_normKind env s.files "" c
      rw [hn] at this
      exact this hcmem
    have hchat : chatCalls (processFilesEvents env s) = [groqRequest t] := by
      rw [hevents]
      simp [chatCalls, chatOfCall, filterMap_chatOfCall_nil cs hcs]
    refine ⟨by simp [hchat], ?_⟩
    intro hs
    rcases status_of_error env s h e hrp with ⟨hst, _⟩
    rw [hst] at hs
    exact absurd hs (by decide)
  · rcases hb with ⟨cs, t, j, r, hn, _, _, _, hrp, hevents⟩
    have hcs : ∀ c ∈ cs, normKind c = true := by
      intro c hcmem
      have := normalizeFiles_calls_normKind env s.files "" c
      rw [hn] at this
      exact this hcmem
    have hchat : chatCalls (processFilesEvents env s) = [groqRequest t] := by
      rw [hevents]
      simp [chatCalls, chatOfCall, filterMap_chatOfCall_nil cs hcs]
    refine ⟨by simp [hchat], ?_⟩
    intro hs
    rcases status_of_error env s h ("Server failed: " ++ r.statusText) hrp with ⟨hst, _⟩
    rw [hst] at hs
    exact absurd hs (by decide)
  · rcases hb with ⟨cs, t, j, r, hn, hex, hdis, hokr, hrp, hevents⟩
    have hcs : ∀ c ∈ cs, normKind c = true := by
      intro c hcmem
      have := normalizeFiles_calls_normKind env s.files "" c
      rw [hn] at this
      exact this hcmem
    have hchat : chatCalls (processFilesEvents env s) = [groqRequest t] := by
      rw [hevents]
      simp [chatCalls, chatOfCall, filterMap_chatOfCall_nil cs hcs]
    refine ⟨by simp [hchat], ?_⟩
    intro _
    exact ⟨t, by rw [hn], hchat, rfl, ⟨j, by simp [derivedRecord, hn, hex]⟩⟩

/-- Witness for C2 at a concrete environment and state where the run
succeeds. -/
theorem single_extraction_per_run_witness :
    testState.files ≠ [] ∧
    ((chatCalls (processFilesEvents testEnv testState)).length ≤ 1 ∧
     ((processFiles testEnv testState).2.status = "success" →
       ∃ t : String,
         (normalizeFiles testEnv testState.files "").2 = .ok t ∧
         chatCalls (processFilesEvents testEnv testState) = [groqRequest t] ∧
         (groqRequest t).messages =
           [{ role := "system", content := systemPrompt },
            { role := "user", content := t }] ∧
         ∃ j : Json, derivedRecord testEnv testState.files = some j)) :=
  ⟨by decide, single_extraction_per_run testEnv testState (by decide)⟩

/-- C5: when the completion call succeeds but its answer is not
parseable JSON, the run ends in status "error" carrying the parse
failure's message, the persistence endpoint is never called, and no
repair or retry happens — the extractor was still invoked exactly
once. -/
theorem unparseable_json_aborts (env : Env) (s : AppState) (t resp e : String)
    (h : s.files ≠ [])
    (hn : (normalizeFiles env s.files "").2 = .ok t)
    (hc : env.chatCreate (groqRequest t) = .ok resp)
    (hp : env.jsonParse resp = .error e) :
    (processFiles env s).2.status = "error" ∧
    (processFiles env s).2.errorLog = e ∧
    fetchCalls (processFilesEvents env s) = [] ∧
    chatCalls (processFilesEvents env s) = [groqRequest t] := by
  rcases hn' : normalizeFiles env s.files "" with ⟨cs, nres⟩
  rw [hn'] at hn
  simp only at hn
  subst hn
  have hcs : ∀ c ∈ cs, normKind c = true := by
    intro c hcmem
    have := normalizeFiles_calls_normKind env s.files "" c
    rw [hn'] at this
    exact this hcmem
  have hrp := runPipeline_parse_error env s.files cs t resp e hn' hc hp
  have hrp2 : (runPipeline env s.files).2 = .error e := by rw [hrp]
  have hevents := processFilesEvents_nonempty env s h
  rw [hrp] at hevents
  rcases processFiles_final env s h with ⟨_, hcase⟩
  rcases hcase with ⟨hok, _, _⟩ | ⟨e', herr', hst, hel⟩
  · rw [hrp2] at hok
    simp at hok
  · rw [hrp2] at herr'
    simp only [Except.error.injEq] at herr'
    subst herr'
    refine ⟨hst, hel, ?_, ?_⟩
    · rw [hevents]
      simp [fetchCalls, fetchOfCall, filterMap_fetchOfCall_nil cs hcs]
    · rw [hevents]
      simp [chatCalls, chatOfCall, filterMap_chatOfCall_nil cs hcs]

/-- Witness for C5 at a concrete environment whose completion answer
is not JSON. -/
theorem unparseable_json_aborts_witness :
    testState.files ≠ [] ∧
    (normalizeFiles badJsonEnv testState.files "").2 = .ok "TEXT\n" ∧
    badJsonEnv.chatCreate (groqRequest "TEXT\n") = .ok "not json" ∧
    badJsonEnv.jsonParse "not json" = .error "Unexpected token" ∧
    ((processFiles badJsonEnv testState).2.status = "error" ∧
     (processFiles badJsonEnv testState).2.errorLog = "Unexpected token" ∧
     fetchCalls (processFilesEvents badJsonEnv testState) = [] ∧
     chatCalls (processFilesEvents badJsonEnv testState) = [groqRequest "TEXT\n"]) :=
  ⟨by decide, by rfl, by rfl, by rfl,
   unparseable_json_aborts badJsonEnv testState "TEXT\n" "not json" "Unexpected token"
     (by decide) (by rfl) (by rfl) (by rfl)⟩

/-- C4: once normalization and extraction have succeeded, the
dispatcher performs exactly one HTTP POST — to the persistence URL,
with content type application/json and the stringified record as
body — and the run ends in "success" precisely when the response
status is 2xx-class; a non-success status is a terminal failure whose
message is derived from the endpoint's status text. -/
theorem dispatcher_single_post (env : Env) (s : AppState) (t : String) (j : Json)
    (r : HttpResponse) (h : s.files ≠ [])
    (hn : (normalizeFiles env s.files "").2 = .ok t)
    (he : extractStage env t = .ok j)
    (hf : dispatchStage env j = .ok r) :
    fetchCalls (processFilesEvents env s) =
      [(serverUrl, "application/json", env.jsonStringify j)] ∧
    ((processFiles env s).2.status = "success" ↔
      200 ≤ r.status ∧ r.status < 300) ∧
    (r.ok = false →
      (processFiles env s).2.status = "error" ∧
      (processFiles env s).2.errorLog = "Server failed: " ++ r.statusText) := by
  rcases hn' : normalizeFiles env s.files "" with ⟨cs, nres⟩
  rw [hn'] at hn
  simp only at hn
  subst hn
  have hcs : ∀ c ∈ cs, normKind c = true := by
    intro c hcmem
    have := normalizeFiles_calls_normKind env s.files "" c
    rw [hn'] at this
    exact this hcmem
  rcases hcc : env.chatCreate (groqRequest t) with e0 | resp
  · simp [extractStage, hcc] at he
  · simp only [extractStage, hcc] at he
    have hf' : env.fetchPost serverUrl "application/json" (env.jsonStringify j) = .ok r := by
      rw [← dispatchStage]
      exact hf
    have hevents := processFilesEvents_nonempty env s h
    rcases processFiles_final env s h with ⟨_, hcase⟩
    cases hok : r.ok with
    | true =>
      have hrp := runPipeline_fetch_ok env s.files cs t resp j r hn' hcc he hf' hok
      have hrp2 : (runPipeline env s.files).2 = .ok () := by rw [hrp]
      rw [hrp] at hevents
      have hst : (processFiles env s).2.status = "success" := by
        rcases hcase with ⟨_, hst, _⟩ | ⟨e', herr', _, _⟩
        · exact hst
        · rw [hrp2] at herr'
          simp at herr'
      have hiff : 200 ≤ r.status ∧ r.status < 300 := by
        have := hok
        simp only [HttpResponse.ok, Bool.and_eq_true, decide_eq_true_eq] at this
        exact this
      refine ⟨?_, ⟨fun _ => hiff, fun _ => hst⟩, ?_⟩
      · rw [hevents]
        simp [fetchCalls, fetchOfCall, filterMap_fetchOfCall_nil cs hcs]
      · intro habs
        simp at habs
    | false =>
      have hrp := runPipeline_fetch_notOk env s.files cs t resp j r hn' hcc he hf' hok
      have hrp2 : (runPipeline env s.files).2 =
          .error ("Server failed: " ++ r.statusText) := by rw [hrp]
      rw [hrp] at hevents
      have hboth : (processFiles env s).2.status = "error" ∧
          (processFiles env s).2.errorLog = "Server failed: " ++ r.statusText := by
        rcases hcase with ⟨hok', _, _⟩ | ⟨e', herr', hst, hel⟩
        · rw [hrp2] at hok'
          simp at hok'
        · rw [hrp2] at herr'
          simp only [Except.error.injEq] at herr'
          subst herr'
          exact ⟨hst, hel⟩
      refine ⟨?_, ?_, fun _ => hboth⟩
      · rw [hevents]
        simp [fetchCalls, fetchOfCall, filterMap_fetchOfCall_nil cs hcs]
      · constructor
        · intro hsucc
          rw [hboth.1] at hsucc
          exact absurd hsucc (by decide)
        · intro hin
          have : r.ok = true := by
            simp only [HttpResponse.ok, Bool.and_eq_true, decide_eq_true_eq]
            exact hin
          rw [hok] at this
          simp at this

/-- Witness for C4 at a concrete environment whose persistence
endpoint answers HTTP 500. -/
theorem dispatcher_single_post_witness :
    testState.files ≠ [] ∧
    (normalizeFiles failFetchEnv testState.files "").2 = .ok "TEXT\n" ∧
    extractStage failFetchEnv "TEXT\n" = .ok (.obj []) ∧
    dispatchStage failFetchEnv (.obj []) =
      .ok { status := 500, statusText := "Internal Server Error" } ∧
    (fetchCalls (processFilesEvents failFetchEnv testState) =
      [(serverUrl, "application/json", failFetchEnv.jsonStringify (.obj []))] ∧
     ((processFiles failFetchEnv testState).2.status = "success" ↔
       200 ≤ (500 : Nat) ∧ (500 : Nat) < 300) ∧
     (HttpResponse.ok { status := 500, statusText := "Internal Server Error" } = false →
       (processFiles failFetchEnv testState).2.status = "error" ∧
       (processFiles failFetchEnv testState).2.errorLog =
         "Server failed: " ++ "Internal Server Error")) :=
  ⟨by decide, by rfl, by rfl, by rfl,
   dispatcher_single_post failFetchEnv testState "TEXT\n" (.obj [])
     { status := 500, statusText := "Internal Server Error" }
     (by decide) (by rfl) (by rfl) (by rfl)⟩

lemma run_shape (env : Env) (s : AppState) (h : s.files ≠ []) :
    (∃ e, (runPipeline env s.files).2 = .error e ∧
      (processFiles env s).2.status = "error" ∧
      (processFiles env s).2.errorLog = e ∧
      errorLogWrites (processFilesEvents env s) = ["", e] ∧
      (statusWrites (processFilesEvents env s) = ["processing", "error"] ∨
       statusWrites (processFilesEvents env s) =
         ["processing", extractingStatus, "error"] ∨
       statusWrites (processFilesEvents env s) =
         ["processing", extractingStatus, savingStatus, "error"])) ∨
    ((runPipeline env s.files).2 = .ok () ∧
      (processFiles env s).2.status = "success" ∧
      (processFiles env s).2.errorLog = "" ∧
      errorLogWrites (processFilesEvents env s) = [""] ∧
      statusWrites (processFilesEvents env s) =
        ["processing", extractingStatus, savingStatus, "success"]) := by
  rcases processFilesEvents_cases env s h with hb | hb | hb | hb | hb
  · rcases hb with ⟨cs, e, _, hrp, hevents⟩
    rcases status_of_error env s h e hrp with ⟨hst, hel⟩
    refine Or.inl ⟨e, hrp, hst, hel, ?_, Or.inl ?_⟩ <;> rw [hevents] <;> simp
  · rcases hb with ⟨cs, t, e, _, _, hrp, hevents⟩
    rcases status_of_error env s h e hrp with ⟨hst, hel⟩
    refine Or.inl ⟨e, hrp, hst, hel, ?_, Or.inr (Or.inl ?_)⟩ <;> rw [hevents] <;> simp
  · rcases hb with ⟨cs, t, j, e, _, _, _, hrp, hevents⟩
    rcases status_of_error env s h e hrp with ⟨hst, hel⟩
    refine Or.inl ⟨e, hrp, hst, hel, ?_, Or.inr (Or.inr ?_)⟩ <;>
      rw [hevents] <;> simp
  · rcases hb with ⟨cs, t, j, r, _, _, _, _, hrp, hevents⟩
    rcases status_of_error env s h ("Server failed: " ++ r.statusText) hrp with ⟨hst, hel⟩
    refine Or.inl ⟨"Server failed: " ++ r.statusText, hrp, hst, hel, ?_,
      Or.inr (Or.inr ?_)⟩ <;> rw [hevents] <;> simp
  · rcases hb with ⟨cs, t, j, r, _, _, _, _, hrp, hevents⟩
    rcases status_of_ok env s h hrp with ⟨hst, hel⟩
    refine Or.inr ⟨hrp, hst, hel, ?_, ?_⟩ <;> rw [hevents] <;> simp

/-- C3: the run reaches status "success" exactly when all three
stages (normalize, extract, dispatch) complete without error (the
dispatch response being 2xx); on any stage failure the status becomes
"error" carrying that failure's message verbatim; and the terminal
value ("success" or "error") is the last status written in the run,
so both are terminal for that run. -/
theorem success_only_after_all_stages (env : Env) (s : AppState) (h : s.files ≠ []) :
    ((processFiles env s).2.status = "success" ↔
      ∃ t j r, (normalizeFiles env s.files "").2 = .ok t ∧
        extractStage env t = .ok j ∧
        dispatchStage env j = .ok r ∧ r.ok = true) ∧
    (∀ e, (runPipeline env s.files).2 = .error e →
      (processFiles env s).2.status = "error" ∧
      (processFiles env s).2.errorLog = e) ∧
    (∃ pre term, statusWrites (processFilesEvents env s) = pre ++ [term] ∧
      (∀ v ∈ pre, v ≠ "success" ∧ v ≠ "error") ∧
      (term = "success" ∨ term = "error") ∧
      (processFiles env s).2.status = term) := by
  refine ⟨?_, fun e hrp => status_of_error env s h e hrp, ?_⟩
  · constructor
    · intro hs
      rcases processFilesEvents_cases env s h with hb | hb | hb | hb | hb
      · rcases hb with ⟨cs, e, _, hrp, _⟩
        rcases status_of_error env s h e hrp with ⟨hst, _⟩
        rw [hst] at hs
        exact absurd hs (by decide)
      · rcases hb with ⟨cs, t, e, _, _, hrp, _⟩
        rcases status_of_error env s h e hrp with ⟨hst, _⟩
        rw [hst] at hs
        exact absurd hs (by decide)
      · rcases hb with ⟨cs, t, j, e, _, _, _, hrp, _⟩
        rcases status_of_error env s h e hrp with ⟨hst, _⟩
        rw [hst] at hs
        exact absurd hs (by decide)
      · rcases hb with ⟨cs, t, j, r, _, _, _, _, hrp, _⟩
        rcases status_of_error env s h ("Server failed: " ++ r.statusText) hrp
          with ⟨hst, _⟩
        rw [hst] at hs
        exact absurd hs (by decide)
      · rcases hb with ⟨cs, t, j, r, hn, hex, hdis, hokr, _, _⟩
        exact ⟨t, j, r, by rw [hn], hex, hdis, hokr⟩
    · rintro ⟨t, j, r, hn, hex, hdis, hokr⟩
      rcases hn' : normalizeFiles env s.files "" with ⟨cs, nres⟩
      rw [hn'] at hn
      simp only at hn
      subst hn
      rcases hcc : env.chatCreate (groqRequest t) with e0 | resp
      · simp [extractStage, hcc] at hex
      · simp only [extractStage, hcc] at hex
        have hf' : env.fetchPost serverUrl "application/json" (env.jsonStringify j) =
            .ok r := by
          rw [← dispatchStage]
          exact hdis
        have hrp := runPipeline_fetch_ok env s.files cs t resp j r hn' hcc hex hf' hokr
        exact (status_of_ok env s h (by rw [hrp])).1
  · rcases run_shape env s h with ⟨e, _, hst, _, _, hsw | hsw | hsw⟩ | ⟨_, hst, _, _, hsw⟩
    · exact ⟨["processing"], "error", by simp [hsw], by decide, Or.inr rfl, hst⟩
    · exact ⟨["processing", extractingStatus], "error", by simp [hsw], by decide,
        Or.inr rfl, hst⟩
    · exact ⟨["processing", extractingStatus, savingStatus], "error", by simp [hsw],
        by decide, Or.inr rfl, hst⟩
    · exact ⟨["processing", extractingStatus, savingStatus], "success", by simp [hsw],
        by decide, Or.inl rfl, hst⟩

/-- Witness for C3 at a concrete environment and state. -/
theorem success_only_after_all_stages_witness :
    testState.files ≠ [] ∧
    (((processFiles testEnv testState).2.status = "success" ↔
      ∃ t j r, (normalizeFiles testEnv testState.files "").2 = .ok t ∧
        extractStage testEnv t = .ok j ∧
        dispatchStage testEnv j = .ok r ∧ r.ok = true) ∧
    (∀ e, (runPipeline testEnv testState.files).2 = .error e →
      (processFiles testEnv testState).2.status = "error" ∧
      (processFiles testEnv testState).2.errorLog = e) ∧
    (∃ pre term,
      statusWrites (processFilesEvents testEnv testState) = pre ++ [term] ∧
      (∀ v ∈ pre, v ≠ "success" ∧ v ≠ "error") ∧
      (term = "success" ∨ term = "error") ∧
      (processFiles testEnv testState).2.status = term)) :=
  ⟨by decide, success_only_after_all_stages testEnv testState (by decide)⟩

/-- C9: every status value written while a run is in flight contains
the substring "processing" and the terminal values do not; hence the
`status.includes("processing")` predicate that disables the start
button holds from the first write of a run up to (but excluding) the
terminal write, and fails on "idle", "success" and "error", so a new
run cannot be started while one is in flight. -/
theorem processing_flag_during_run (env : Env) (s : AppState) (h : s.files ≠ []) :
    (buttonDisabled "processing" = true ∧
     buttonDisabled extractingStatus = true ∧
     buttonDisabled savingStatus = true ∧
     buttonDisabled "idle" = false ∧
     buttonDisabled "success" = false ∧
     buttonDisabled "error" = false) ∧
    (∃ pre term, statusWrites (processFilesEvents env s) = pre ++ [term] ∧
      (∀ v ∈ pre, buttonDisabled v = true) ∧
      (term = "success" ∨ term = "error") ∧
      buttonDisabled term = false) := by
  refine ⟨by decide, ?_⟩
  rcases run_shape env s h with ⟨e, _, _, _, _, hsw | hsw | hsw⟩ | ⟨_, _, _, _, hsw⟩
  · exact ⟨["processing"], "error", by simp [hsw], by decide, Or.inr rfl, by decide⟩
  · exact ⟨["processing", extractingStatus], "error", by simp [hsw], by decide,
      Or.inr rfl, by decide⟩
  · exact ⟨["processing", extractingStatus, savingStatus], "error", by simp [hsw],
      by decide, Or.inr rfl, by decide⟩
  · exact ⟨["processing", extractingStatus, savingStatus], "success", by simp [hsw],
      by decide, Or.inl rfl, by decide⟩

/-- Witness for C9 at a concrete environment and state. -/
theorem processing_flag_during_run_witness :
    testState.files ≠ [] ∧
    ((buttonDisabled "processing" = true ∧
      buttonDisabled extractingStatus = true ∧
      buttonDisabled savingStatus = true ∧
      buttonDisabled "idle" = false ∧
      buttonDisabled "success" = false ∧
      buttonDisabled "error" = false) ∧
    (∃ pre term,
      statusWrites (processFilesEvents testEnv testState) = pre ++ [term] ∧
      (∀ v ∈ pre, buttonDisabled v = true) ∧
      (term = "success" ∨ term = "error") ∧
      buttonDisabled term = false)) :=
  ⟨by decide, processing_flag_during_run testEnv testState (by decide)⟩

/-- C10: every accepted run resets errorLog to the empty string
before any stage executes; errorLog is then written again only on the
error path, with that run's failure message; hence a previous run's
message never survives into a new run, and at the end of a run a
non-empty errorLog implies status "error". -/
theorem errorlog_reset_and_error_only (env : Env) (s : AppState) (h : s.files ≠ []) :
    (∃ rest, processFilesEvents env s =
      Event.setStatus "processing" :: Event.setErrorLog "" :: rest) ∧
    (errorLogWrites (processFilesEvents env s) = [""] ∨
     ∃ e, (runPipeline env s.files).2 = .error e ∧
       errorLogWrites (processFilesEvents env s) = ["", e] ∧
       (processFiles env s).2.status = "error") ∧
    ((processFiles env s).2.errorLog ≠ "" →
      (processFiles env s).2.status = "error") := by
  refine ⟨⟨_, processFilesEvents_nonempty env s h⟩, ?_, ?_⟩
  · rcases run_shape env s h with ⟨e, hrp, hst, _, hew, _⟩ | ⟨_, _, _, hew, _⟩
    · exact Or.inr ⟨e, hrp, hew, hst⟩
    · exact Or.inl hew
  · intro hne
    rcases run_shape env s h with ⟨e, _, hst, _, _, _⟩ | ⟨_, _, hel, _, _⟩
    · exact hst
    · exact absurd hel hne

/-- Witness for C10 at a concrete environment whose run fails at the
persistence endpoint. -/
theorem errorlog_reset_and_error_only_witness :
    testState.files ≠ [] ∧
    ((∃ rest, processFilesEvents failFetchEnv testState =
      Event.setStatus "processing" :: Event.setErrorLog "" :: rest) ∧
    (errorLogWrites (processFilesEvents failFetchEnv testState) = [""] ∨
     ∃ e, (runPipeline failFetchEnv testState.files).2 = .error e ∧
       errorLogWrites (processFilesEvents failFetchEnv testState) = ["", e] ∧
       (processFiles failFetchEnv testState).2.status = "error") ∧
    ((processFiles failFetchEnv testState).2.errorLog ≠ "" →
      (processFiles failFetchEnv testState).2.status = "error")) :=
  ⟨by decide, errorlog_reset_and_error_only failFetchEnv testState (by decide)⟩
